import Mathlib

/-!
# A shallow embedding of fortio (fortio.py)

fortio is a reader/writer for Fortran unformatted sequential binary files:
each logical record is stored as one physical subrecord
`header | payload | footer` (simple mode, unsigned header dtype) or as a
chain of subrecords whose continuation subrecords carry negative headers
(long mode, signed header dtype).

The embedding models the file contents as a `List Nat` of bytes and the
open file object's position indicator as an explicit `Nat` cursor threaded
through every operation.  Python exceptions become an `Except Err` result.
The unbounded `while` loops of `skip_record`, `_read_record_data` and
`_check_file` are modelled with an explicit fuel argument; fuel exhaustion
is a distinguished error that adequate fuel (supplied by the wrappers)
never reaches.
-/

set_option maxHeartbeats 1000000
set_option maxRecDepth 100000

namespace Fortio

/-- Decidable equality of `Except` results, so that concrete runs of the
embedded operations can be settled by `decide`. -/
instance {ε α : Type} [DecidableEq ε] [DecidableEq α] : DecidableEq (Except ε α) := fun
  | .ok a, .ok b =>
    if h : a = b then .isTrue (congrArg Except.ok h)
    else .isFalse (fun hc => h (Except.ok.inj hc))
  | .error a, .error b =>
    if h : a = b then .isTrue (congrArg Except.error h)
    else .isFalse (fun hc => h (Except.error.inj hc))
  | .ok _, .error _ => .isFalse (fun hc => Except.noConfusion hc)
  | .error _, .ok _ => .isFalse (fun hc => Except.noConfusion hc)

/-- Failure modes, mirroring the Python exception types raised in fortio.py:
`ValueError` (header mismatch, truncated read, record too large, invalid
file), `IndexError` (list index out of range on `_offsets`/`_lengths`),
`TypeError` (byte-order mismatch in `read_record_into`), `IOError`
(writing a file not opened for writing), `NotImplementedError` (writing
with a signed header dtype).  `fuelOut` is an artifact of modelling the
unbounded while-loops with fuel; with adequate fuel it is unreachable. -/
inductive Err where
  | valueError
  | indexError
  | typeError
  | ioError
  | notImplementedError
  | fuelOut
deriving DecidableEq

/-- Byte order of a numpy integer dtype. -/
inductive ByteOrder where
  | little
  | big
deriving DecidableEq

/-- Model of `np.dtype(header_dtype)` as used by fortio: an integer type
given by its byte width (`itemsize`), signedness (`kind == 'i'` versus
`'u'`; a signed kind makes the file a long-record file) and byte order. -/
structure HeaderDtype where
  width : Nat
  signed : Bool
  order : ByteOrder
deriving DecidableEq

/-- `header_dtype.newbyteorder()`: swap the byte order. -/
def HeaderDtype.newbyteorder (d : HeaderDtype) : HeaderDtype :=
  { d with order := match d.order with | .little => .big | .big => .little }

/-- Value of a byte list read as a little-endian natural number. -/
def decodeNatLE : List Nat → Nat
  | [] => 0
  | b :: bs => b + 256 * decodeNatLE bs

/-- Little-endian bytes of `n`, `w` bytes wide (truncating modulo `2 ^ (8 * w)`). -/
def encodeNatLE : Nat → Nat → List Nat
  | 0, _ => []
  | w + 1, n => n % 256 :: encodeNatLE w (n / 256)

/-- Unsigned value of stored bytes under byte order `o`. -/
def decodeNatBytes (o : ByteOrder) (bs : List Nat) : Nat :=
  match o with
  | .little => decodeNatLE bs
  | .big => decodeNatLE bs.reverse

/-- Integer read from `width` stored bytes, as numpy does: two's-complement
for signed dtypes, plain binary for unsigned ones. -/
def HeaderDtype.decode (d : HeaderDtype) (bs : List Nat) : Int :=
  let u := decodeNatBytes d.order bs
  if d.signed = true ∧ 2 ^ (8 * d.width - 1) ≤ u then
    (u : Int) - 2 ^ (8 * d.width)
  else
    (u : Int)

/-- Bytes produced for integer `v` by `np.array(v).astype(header_dtype)`
followed by `tofile`: two's-complement truncation to `width` bytes in the
dtype's byte order. -/
def HeaderDtype.encode (d : HeaderDtype) (v : Int) : List Nat :=
  let u := (v % ((2 : Int) ^ (8 * d.width))).toNat
  match d.order with
  | .little => encodeNatLE d.width u
  | .big => (encodeNatLE d.width u).reverse

/-- `np.iinfo(header_dtype).max`. -/
def HeaderDtype.iinfoMax (d : HeaderDtype) : Int :=
  if d.signed then 2 ^ (8 * d.width - 1) - 1 else 2 ^ (8 * d.width) - 1

/-- `_read_header`: `head, = np.fromfile(self._fp, dtype=self.header_dtype,
count=1)` at cursor `pos`.  When fewer than `width` bytes remain, the
unpacking of the empty result raises `ValueError`; otherwise the `width`
bytes at `pos` are decoded and the cursor advances past them. -/
def readHeader (d : HeaderDtype) (file : List Nat) (pos : Nat) :
    Except Err (Int × Nat) :=
  if pos + d.width ≤ file.length then
    .ok (d.decode ((file.drop pos).take d.width), pos + d.width)
  else
    .error .valueError

/-- `_assert_header_equal`. -/
def assertHeaderEqual (head tail : Int) : Except Err Unit :=
  if head ≠ tail then .error .valueError else .ok ()

/-- `_assert_header_abs_equal`. -/
def assertHeaderAbsEqual (head tail : Int) : Except Err Unit :=
  if head ≠ tail ∧ head ≠ -tail then .error .valueError else .ok ()

/-- The long-record inner `while` loop of `skip_record` (signed header
dtype): read a header, seek over `abs(head)` payload bytes, read the
footer, check `abs`-consistency, accumulate `abs(int(head))`, and stop at
the first non-negative header.  Returns the accumulated byte count, the
final cursor and the number of subrecords consumed (the latter is a ghost
count used only to state chain-length properties).  Note: the source
seeks by numpy-level `abs(head)`; the embedding uses mathematical
`Int.natAbs`, which agrees except at the unrepresentable most-negative
header value where numpy `abs` overflows. -/
def skipChain (d : HeaderDtype) (file : List Nat) :
    Nat → Nat → Int → Nat → Except Err (Int × Nat × Nat)
  | 0, _, _, _ => .error .fuelOut
  | fuel + 1, pos, total, cnt =>
    match readHeader d file pos with
    | .error e => .error e
    | .ok (head, p1) =>
      match readHeader d file (p1 + head.natAbs) with
      | .error e => .error e
      | .ok (tail, p3) =>
        match assertHeaderAbsEqual head tail with
        | .error e => .error e
        | .ok _ =>
          if 0 ≤ head then .ok (total + |head|, p3, cnt + 1)
          else skipChain d file fuel p3 (total + |head|) (cnt + 1)

/-- One iteration of `skip_record` over a single logical record: the whole
subrecord chain in long mode, or one `header | payload | footer` envelope
in simple mode.  Returns the skipped data byte count, the final cursor and
the number of subrecords consumed. -/
def skipRecord1 (d : HeaderDtype) (file : List Nat) (pos : Nat) :
    Except Err (Int × Nat × Nat) :=
  if d.signed then
    skipChain d file (file.length + 2) pos 0 0
  else
    match readHeader d file pos with
    | .error e => .error e
    | .ok (head, p1) =>
      match readHeader d file (p1 + head.toNat) with
      | .error e => .error e
      | .ok (tail, p3) =>
        match assertHeaderEqual head tail with
        | .error e => .error e
        | .ok _ => .ok (head, p3, 1)

/-- `skip_record(nrec)`: skip the next `nrec` logical records, returning
the total number of skipped data bytes (headers excluded) and the final
cursor. -/
def skipRecordN (d : HeaderDtype) (file : List Nat) :
    Nat → Nat → Int → Except Err (Int × Nat)
  | 0, pos, total => .ok (total, pos)
  | n + 1, pos, total =>
    match skipRecord1 d file pos with
    | .error e => .error e
    | .ok (t, p, _) => skipRecordN d file n p (total + t)

/-- The `_offsets` and `_lengths` lists built by `_check_file`. -/
abbrev FIndex := List Nat × List Int

/-- `goto_record(rec)`: `None` does nothing; with the index present, seek
to `_offsets[rec]` (`IndexError` when `rec` is out of range); without it,
seek to 0 and `skip_record(rec)`.  Returns the new cursor. -/
def gotoRecord (d : HeaderDtype) (file : List Nat) (index : Option FIndex)
    (pos : Nat) (rec : Option Nat) : Except Err Nat :=
  match rec with
  | none => .ok pos
  | some r =>
    match index with
    | some idx =>
      match idx.1.get? r with
      | some o => .ok o
      | none => .error .indexError
    | none =>
      match skipRecordN d file r 0 0 with
      | .error e => .error e
      | .ok (_, p) => .ok p

/-- `get_record_size(rec)`: with the index present and `rec` given, return
`_lengths[rec]`; otherwise save the cursor, `goto_record(rec)`, measure
the size (a full chain walk via `skip_record` in long mode, a single
`_read_header` in simple mode) and seek back to the saved cursor.
Returns the size and the final cursor. -/
def getRecordSize (d : HeaderDtype) (file : List Nat) (index : Option FIndex)
    (pos : Nat) (rec : Option Nat) : Except Err (Int × Nat) :=
  match rec, index with
  | some r, some idx =>
    match idx.2.get? r with
    | some s => .ok (s, pos)
    | none => .error .indexError
  | rec, index =>
    match gotoRecord d file index pos rec with
    | .error e => .error e
    | .ok p1 =>
      if d.signed then
        match skipRecord1 d file p1 with
        | .error e => .error e
        | .ok (t, _, _) => .ok (t, pos)
      else
        match readHeader d file p1 with
        | .error e => .error e
        | .ok (h, _) => .ok (h, pos)

/-- `_check_byteorder`: probe `goto_record(1)` under the configured byte
order (the index does not exist yet at this point of `__init__`); on
`ValueError`, flip the byte order and retry the probe; if the retry also
raises `ValueError`, close the file and raise `ValueError` ("Invalid
fortran file").  Returns the resolved header dtype. -/
def checkByteorder (d : HeaderDtype) (file : List Nat) : Except Err HeaderDtype :=
  match gotoRecord d file none 0 (some 1) with
  | .ok _ => .ok d
  | .error .valueError =>
    match gotoRecord d.newbyteorder file none 0 (some 1) with
    | .ok _ => .ok d.newbyteorder
    | .error .valueError => .error .valueError
    | .error e => .error e
  | .error e => .error e

/-- The scan loop of `_check_file`: starting from the cursor, repeatedly
record the current offset, stop once it equals the file size, otherwise
`skip_record()` once and record the returned length. -/
def checkFileLoop (d : HeaderDtype) (file : List Nat) :
    Nat → Nat → Except Err FIndex
  | 0, _ => .error .fuelOut
  | fuel + 1, pos =>
    if pos = file.length then .ok ([], [])
    else
      match skipRecord1 d file pos with
      | .error e => .error e
      | .ok (len, p, _) =>
        match checkFileLoop d file fuel p with
        | .error e => .error e
        | .ok (offs, lens) => .ok (pos :: offs, len :: lens)

/-- `_check_file`: seek to 0 and scan the whole file, producing `_offsets`
and `_lengths`; any `ValueError` closes the file and raises `ValueError`
("Invalid fortran file"), which the embedding models by propagating the
error. -/
def checkFile (d : HeaderDtype) (file : List Nat) : Except Err FIndex :=
  checkFileLoop d file (file.length + 2) 0

/-- The read-mode part of an open `FortranFile` handle after `__init__`:
the (possibly auto-detected) header dtype, the optional index and the
cursor. -/
structure Handle where
  dtype : HeaderDtype
  index : Option FIndex
  pos : Nat
deriving DecidableEq

/-- The read-mode `__init__` body: optional byte-order auto-detection,
optional full-file check, then `self._fp.seek(0)`. -/
def openRead (d : HeaderDtype) (file : List Nat) (autoEndian checkF : Bool) :
    Except Err Handle :=
  match (if autoEndian then checkByteorder d file else .ok d) with
  | .error e => .error e
  | .ok d1 =>
    match (if checkF then (checkFile d1 file).map some else .ok none) with
    | .error e => .error e
    | .ok index => .ok ⟨d1, index, 0⟩

/-- `write_record(data)`: only in write mode (`IOError` otherwise), only
with an unsigned header dtype (`NotImplementedError` otherwise); raises
`ValueError` before writing anything when `data.nbytes` exceeds
`np.iinfo(header_dtype).max`; otherwise emits header, payload and footer
and returns the emitted bytes together with `data.nbytes`.  `writeMode`
is true when the file was opened with mode `'w'`. -/
def writeRecord (d : HeaderDtype) (writeMode : Bool) (data : List Nat) :
    Except Err (List Nat × Nat) :=
  if writeMode = false then .error .ioError
  else if d.signed then .error .notImplementedError
  else if (data.length : Int) > d.iinfoMax then .error .valueError
  else .ok (d.encode (data.length : Int) ++ data ++ d.encode (data.length : Int),
            data.length)

/-- `self._fp.readinto(buf[lo : lo + len])`: copy from the file at `pos`
into the slice `buf[lo : lo + len]`, reading as many bytes as both the
slice and the remaining file allow.  Returns the updated buffer, the
number of bytes read and the new cursor. -/
def readinto (file : List Nat) (pos : Nat) (buf : List Nat) (lo len : Nat) :
    List Nat × Nat × Nat :=
  let sliceLen := min (lo + len) buf.length - lo
  let nread := min sliceLen (file.length - pos)
  (buf.take lo ++ (file.drop pos).take nread ++ buf.drop (lo + nread),
   nread, pos + nread)

/-- The long-record `while` loop of `_read_record_data`: read a header,
`readinto` the next `abs(head)` bytes of the buffer, read the footer,
check `abs`-consistency, accumulate `nread`, stop at the first
non-negative header. -/
def readDataChain (d : HeaderDtype) (file : List Nat) :
    Nat → Nat → List Nat → Nat → Except Err (List Nat × Nat × Nat)
  | 0, _, _, _ => .error .fuelOut
  | fuel + 1, pos, buf, total =>
    match readHeader d file pos with
    | .error e => .error e
    | .ok (head, p1) =>
      match readinto file p1 buf total head.natAbs with
      | (buf1, nread, p2) =>
        match readHeader d file p2 with
        | .error e => .error e
        | .ok (tail, p3) =>
          match assertHeaderAbsEqual head tail with
          | .error e => .error e
          | .ok _ =>
            if 0 ≤ head then .ok (buf1, total + nread, p3)
            else readDataChain d file fuel p3 buf1 (total + nread)

/-- `_read_record_data(data)`: fill the byte buffer `buf` with the payload
of the logical record at the cursor; returns the filled buffer, the number
of bytes read and the final cursor. -/
def readRecordData (d : HeaderDtype) (file : List Nat) (pos : Nat)
    (buf : List Nat) : Except Err (List Nat × Nat × Nat) :=
  if d.signed then
    readDataChain d file (file.length + 2) pos buf 0
  else
    match readHeader d file pos with
    | .error e => .error e
    | .ok (head, p1) =>
      match readinto file p1 buf 0 head.toNat with
      | (buf1, nread, p2) =>
        match readHeader d file p2 with
        | .error e => .error e
        | .ok (tail, p3) =>
          match assertHeaderEqual head tail with
          | .error e => .error e
          | .ok _ => .ok (buf1, nread, p3)

/-- `read_record(dtype='byte', shape=None, rec, memmap=False)`:
`goto_record(rec)`, measure the size with `get_record_size()` (which
restores the cursor), check the size against the element width (1 for the
byte dtype, so the `size % dtype.itemsize` test is kept literally), fill
a freshly allocated buffer via `_read_record_data` and return it.
`np.empty(size)` has arbitrary contents, modelled by the allocator
argument `alloc`; viewing the byte buffer as the byte dtype is the
identity.  Returns the record bytes and the final cursor. -/
def readRecordBytes (d : HeaderDtype) (file : List Nat) (index : Option FIndex)
    (pos : Nat) (rec : Option Nat) (alloc : Nat → List Nat) :
    Except Err (List Nat × Nat) :=
  match gotoRecord d file index pos rec with
  | .error e => .error e
  | .ok p1 =>
    match getRecordSize d file index p1 none with
    | .error e => .error e
    | .ok (size, p2) =>
      if size % (1 : Int) ≠ 0 then .error .valueError
      else
        match readRecordData d file p2 (alloc size.toNat) with
        | .error e => .error e
        | .ok (data, _, p3) => .ok (data, p3)

/-- `read_record_into(into, offset, rec)`: reject, with `TypeError`, a
destination array whose dtype byte order differs from the handle's byte
order, before touching the file; otherwise view the destination as bytes,
drop `offset` leading bytes, `goto_record(rec)`, measure the size with
`get_record_size()` (cursor restored), reject with `ValueError` a
destination region smaller than the record, and fill it via
`_read_record_data`.  Returns the number of bytes read and the final
cursor. -/
def readRecordInto (d : HeaderDtype) (file : List Nat) (index : Option FIndex)
    (pos : Nat) (intoOrder : ByteOrder) (into : List Nat) (offset : Option Nat)
    (rec : Option Nat) : Except Err (Nat × Nat) :=
  if intoOrder ≠ d.order then .error .typeError
  else
    let data := match offset with
      | some o => into.drop o
      | none => into
    match gotoRecord d file index pos rec with
    | .error e => .error e
    | .ok p1 =>
      match getRecordSize d file index p1 none with
      | .error e => .error e
      | .ok (size, p2) =>
        if (data.length : Int) < size then .error .valueError
        else
          match readRecordData d file p2 data with
          | .error e => .error e
          | .ok (_, nread, p3) => .ok (nread, p3)

/-! ## Concrete artifacts

Small concrete dtypes and files used to exercise the embedded operations
on explicit inputs. -/

/-- The default header dtype `uint32` on a little-endian machine:
4 bytes, unsigned, so simple (non-long) records. -/
def d4u : HeaderDtype := ⟨4, false, .little⟩

/-- A signed `int32` header dtype: long (chained-subrecord) mode. -/
def d4i : HeaderDtype := ⟨4, true, .little⟩

/-- One on-disk subrecord envelope with header value `hd` and payload `p`. -/
def subrec (d : HeaderDtype) (hd : Int) (p : List Nat) : List Nat :=
  d.encode hd ++ p ++ d.encode hd

/-- A long-mode file holding one logical record made of three chained
subrecords with headers `-100`, `-250`, `60` (negative = continuation). -/
def chainFile : List Nat :=
  subrec d4i (-100) (List.replicate 100 7) ++ subrec d4i (-250) (List.replicate 250 8)
    ++ subrec d4i 60 (List.replicate 60 9)

/-- A simple-mode file holding exactly one record with payload `[9, 9]`. -/
def file1 : List Nat := subrec d4u 2 [9, 9]

/-- A handcrafted simple-mode subrecord with header 20 and footer 21. -/
def badFile : List Nat := d4u.encode 20 ++ List.replicate 20 0 ++ d4u.encode 21

/-- A simple-mode file holding two records, payloads `[5]` and `[6, 7]`. -/
def twoRecFile : List Nat := subrec d4u 1 [5] ++ subrec d4u 2 [6, 7]

/-! ## Codec lemmas -/

theorem encodeNatLE_length (w n : Nat) : (encodeNatLE w n).length = w := by
  induction w generalizing n with
  | zero => simp [encodeNatLE]
  | succ w ih => simp [encodeNatLE, ih]

theorem decodeNatLE_encodeNatLE (w n : Nat) :
    decodeNatLE (encodeNatLE w n) = n % 2 ^ (8 * w) := by
  induction w generalizing n with
  | zero => simp [encodeNatLE, decodeNatLE, Nat.mod_one]
  | succ w ih =>
    rw [show 8 * (w + 1) = 8 + 8 * w by ring, pow_add]
    simp only [encodeNatLE, decodeNatLE, ih]
    rw [Nat.mod_mul]
    norm_num

theorem HeaderDtype.encode_length (d : HeaderDtype) (v : Int) :
    (d.encode v).length = d.width := by
  unfold HeaderDtype.encode
  cases d.order <;> simp [encodeNatLE_length]

/-- Writing a natural number `S` below `2 ^ (8 * width)` with an unsigned
header dtype and reading it back yields `S` again. -/
theorem HeaderDtype.decode_encode_ofNat (d : HeaderDtype) (hs : d.signed = false)
    (S : Nat) (h : S < 2 ^ (8 * d.width)) :
    d.decode (d.encode (S : Int)) = (S : Int) := by
  have hmod : ((S : Int) % ((2 : Int) ^ (8 * d.width))).toNat = S := by
    have h1 : ((2 : Int) ^ (8 * d.width)) = ((2 ^ (8 * d.width) : Nat) : Int) := by
      push_cast
      ring
    rw [h1, ← Int.natCast_mod, Nat.mod_eq_of_lt h]
    exact Int.toNat_natCast S
  have hdec : decodeNatBytes d.order (d.encode (S : Int)) = S := by
    unfold HeaderDtype.encode
    cases d.order with
    | little =>
      simp only [decodeNatBytes, hmod, decodeNatLE_encodeNatLE]
      exact Nat.mod_eq_of_lt h
    | big =>
      simp only [decodeNatBytes, hmod, List.reverse_reverse, decodeNatLE_encodeNatLE]
      exact Nat.mod_eq_of_lt h
  unfold HeaderDtype.decode
  simp [hdec, hs]

/-! ## Framing lemmas -/

/-- Reading a header whose `width` encoded bytes sit at offset `A.length`
of the file yields the decoded value and advances the cursor past it. -/
theorem readHeader_at (d : HeaderDtype) (A B : List Nat) (v : Int) :
    readHeader d (A ++ d.encode v ++ B) A.length =
      .ok (d.decode (d.encode v), A.length + d.width) := by
  unfold readHeader
  rw [if_pos (by simp [HeaderDtype.encode_length])]
  rw [List.append_assoc, List.drop_left]
  rw [show d.width = (d.encode v).length from (HeaderDtype.encode_length d v).symm]
  rw [List.take_left]

/-- Skipping the simple-mode record whose envelope starts at offset 0:
header and footer decode to `S`, the consistency check passes and the
cursor ends right after the footer. -/
theorem skipRecord1_simple (d : HeaderDtype) (hs : d.signed = false)
    (S : Nat) (hS : S < 2 ^ (8 * d.width)) (payload B : List Nat)
    (hp : payload.length = S) :
    skipRecord1 d (d.encode (S : Int) ++ payload ++ d.encode (S : Int) ++ B) 0 =
      .ok ((S : Int), d.width + S + d.width, 1) := by
  have hd := HeaderDtype.decode_encode_ofNat d hs S hS
  have h1 : readHeader d (d.encode (S : Int) ++ payload ++ d.encode (S : Int) ++ B) 0 =
      .ok ((S : Int), d.width) := by
    have h := readHeader_at d [] (payload ++ d.encode (S : Int) ++ B) (S : Int)
    simpa [hd] using h
  have h2 : readHeader d (d.encode (S : Int) ++ payload ++ d.encode (S : Int) ++ B)
      (d.width + S) = .ok ((S : Int), d.width + S + d.width) := by
    have h := readHeader_at d (d.encode (S : Int) ++ payload) B (S : Int)
    simpa [hd, HeaderDtype.encode_length, hp, List.append_assoc] using h
  unfold skipRecord1
  rw [if_neg (by simp [hs])]
  simp only [h1, Int.toNat_natCast, h2, assertHeaderEqual, ne_eq, not_true_eq_false,
    if_false]

/-- Reading the payload of the simple-mode record whose envelope starts at
offset 0 into an exactly sized buffer returns the payload verbatim. -/
theorem readRecordData_simple (d : HeaderDtype) (hs : d.signed = false)
    (S : Nat) (hS : S < 2 ^ (8 * d.width)) (payload : List Nat)
    (hp : payload.length = S) (buf : List Nat) (hb : buf.length = S) :
    readRecordData d (d.encode (S : Int) ++ payload ++ d.encode (S : Int)) 0 buf =
      .ok (payload, S, d.width + S + d.width) := by
  have hd := HeaderDtype.decode_encode_ofNat d hs S hS
  have hlen : (d.encode (S : Int) ++ payload ++ d.encode (S : Int)).length =
      d.width + S + d.width := by
    simp only [List.length_append, HeaderDtype.encode_length, hp]
  have h1 : readHeader d (d.encode (S : Int) ++ payload ++ d.encode (S : Int)) 0 =
      .ok ((S : Int), d.width) := by
    have h := readHeader_at d [] (payload ++ d.encode (S : Int)) (S : Int)
    simpa [hd] using h
  have h2 : readHeader d (d.encode (S : Int) ++ payload ++ d.encode (S : Int))
      (d.width + S) = .ok ((S : Int), d.width + S + d.width) := by
    have h := readHeader_at d (d.encode (S : Int) ++ payload) [] (S : Int)
    simpa [hd, HeaderDtype.encode_length, hp, List.append_assoc] using h
  have hdt : ((d.encode (S : Int) ++ payload ++ d.encode (S : Int)).drop d.width).take S =
      payload := by
    rw [show d.width = (d.encode (S : Int)).length from
      (HeaderDtype.encode_length d (S : Int)).symm]
    rw [List.append_assoc, List.drop_left]
    rw [show S = payload.length from hp.symm, List.take_left]
  have hbd : buf.drop S = [] := by
    rw [← hb]
    exact List.drop_length buf
  have hri : readinto (d.encode (S : Int) ++ payload ++ d.encode (S : Int))
      d.width buf 0 S = (payload, S, d.width + S) := by
    have hsub : d.width + S + d.width - d.width = S + d.width := by omega
    have hmin2 : min S (S + d.width) = S := Nat.min_eq_left (Nat.le_add_right S d.width)
    unfold readinto
    simp only [hlen, hb, Nat.zero_add, Nat.sub_zero, Nat.min_self, hsub, hmin2,
      List.take_zero, hdt, hbd, List.append_nil, List.nil_append]
  unfold readRecordData
  rw [if_neg (by simp [hs])]
  simp only [h1, Int.toNat_natCast, hri, h2, assertHeaderEqual, ne_eq,
    not_true_eq_false, if_false]

/-! ## Unfolding equations for the fuel-indexed loops -/

theorem skipRecordN_zero (d : HeaderDtype) (file : List Nat) (pos : Nat) (total : Int) :
    skipRecordN d file 0 pos total = .ok (total, pos) := rfl

theorem skipRecordN_succ (d : HeaderDtype) (file : List Nat) (n pos : Nat) (total : Int) :
    skipRecordN d file (n + 1) pos total =
      match skipRecord1 d file pos with
      | .error e => .error e
      | .ok (t, p, _) => skipRecordN d file n p (total + t) := rfl

theorem checkFileLoop_zero (d : HeaderDtype) (file : List Nat) (pos : Nat) :
    checkFileLoop d file 0 pos = .error .fuelOut := rfl

theorem checkFileLoop_succ (d : HeaderDtype) (file : List Nat) (fuel pos : Nat) :
    checkFileLoop d file (fuel + 1) pos =
      (if pos = file.length then .ok ([], [])
       else
        match skipRecord1 d file pos with
        | .error e => .error e
        | .ok (len, p, _) =>
          match checkFileLoop d file fuel p with
          | .error e => .error e
          | .ok (offs, lens) => .ok (pos :: offs, len :: lens)) := rfl

/-- The on-disk length of a simple-mode envelope. -/
theorem envelope_length (d : HeaderDtype) (v : Int) (payload : List Nat) :
    (d.encode v ++ payload ++ d.encode v).length =
      d.width + payload.length + d.width := by
  simp only [List.length_append, HeaderDtype.encode_length]

/-- Byte-order auto-detection accepts the configured order on any file that
begins with a well-formed simple-mode record. -/
theorem checkByteorder_simple (d : HeaderDtype) (hs : d.signed = false)
    (S : Nat) (hS : S < 2 ^ (8 * d.width)) (payload B : List Nat)
    (hp : payload.length = S) :
    checkByteorder d (d.encode (S : Int) ++ payload ++ d.encode (S : Int) ++ B) =
      .ok d := by
  have h1 := skipRecord1_simple d hs S hS payload B hp
  have hg : gotoRecord d (d.encode (S : Int) ++ payload ++ d.encode (S : Int) ++ B)
      none 0 (some 1) = .ok (d.width + S + d.width) := by
    simp only [gotoRecord]
    rw [show (1 : Nat) = 0 + 1 from rfl, skipRecordN_succ]
    simp only [h1, skipRecordN_zero]
  unfold checkByteorder
  rw [hg]

/-- `_check_file` on a file that is exactly one well-formed simple-mode
record produces the one-entry index `([0], [S])`. -/
theorem checkFile_single (d : HeaderDtype) (hw : 1 ≤ d.width) (hs : d.signed = false)
    (S : Nat) (hS : S < 2 ^ (8 * d.width)) (payload : List Nat)
    (hp : payload.length = S) :
    checkFile d (d.encode (S : Int) ++ payload ++ d.encode (S : Int)) =
      .ok ([0], [(S : Int)]) := by
  have h1 := skipRecord1_simple d hs S hS payload [] hp
  rw [List.append_nil] at h1
  have hlen : (d.encode (S : Int) ++ payload ++ d.encode (S : Int)).length =
      d.width + S + d.width := by
    rw [envelope_length, hp]
  unfold checkFile
  rw [hlen]
  rw [show d.width + S + d.width + 2 = (d.width + S + d.width + 1) + 1 from rfl,
    checkFileLoop_succ]
  rw [if_neg (by rw [hlen]; omega)]
  simp only [h1]
  rw [checkFileLoop_succ, if_pos (by rw [hlen])]

/-! ## C1 -/

/-- C1.  Round-trip: for every payload whose byte length is within the
header dtype's representable range, writing it with `write_record` in
write mode, then reopening the file in read mode (default flags:
auto-detection and file check on) and calling `read_record` at record
index 0, returns exactly the same bytes as the original payload.
(Writing requires an unsigned header dtype; `np.empty` is modelled by the
arbitrary length-respecting allocator `alloc`.) -/
theorem c1_write_read_roundtrip (d : HeaderDtype) (hw : 1 ≤ d.width)
    (hs : d.signed = false) (payload : List Nat)
    (hlen : (payload.length : Int) ≤ d.iinfoMax)
    (alloc : Nat → List Nat) (halloc : ∀ n, (alloc n).length = n) :
    ∃ fileBytes h,
      writeRecord d true payload = .ok (fileBytes, payload.length) ∧
      openRead d fileBytes true true = .ok h ∧
      readRecordBytes d fileBytes h.index h.pos (some 0) alloc =
        .ok (payload, fileBytes.length) := by
  have hS : payload.length < 2 ^ (8 * d.width) := by
    have hmax : d.iinfoMax = ((2 ^ (8 * d.width) : Nat) : Int) - 1 := by
      unfold HeaderDtype.iinfoMax
      rw [if_neg (by simp [hs])]
      push_cast
      ring
    rw [hmax] at hlen
    omega
  set L := payload.length with hL
  set WF := d.encode (L : Int) ++ payload ++ d.encode (L : Int) with hWF
  have hwmax : ¬ ((L : Int) > d.iinfoMax) := not_lt.mpr hlen
  have hwr : writeRecord d true payload = .ok (WF, L) := by
    unfold writeRecord
    rw [if_neg (by simp), if_neg (by simp [hs]), if_neg hwmax]
  have hcb : checkByteorder d WF = .ok d := by
    have h := checkByteorder_simple d hs L hS payload [] rfl
    rwa [List.append_nil] at h
  have hcf : checkFile d WF = .ok ([0], [(L : Int)]) :=
    checkFile_single d hw hs L hS payload rfl
  have hopen : openRead d WF true true = .ok ⟨d, some ([0], [(L : Int)]), 0⟩ := by
    unfold openRead
    simp only [if_true, hcb, hcf, Except.map]
  have hrh : readHeader d WF 0 = .ok ((L : Int), d.width) := by
    rw [hWF]
    have h := readHeader_at d [] (payload ++ d.encode (L : Int)) (L : Int)
    simpa [HeaderDtype.decode_encode_ofNat d hs L hS] using h
  have hg0 : gotoRecord d WF (some ([0], [(L : Int)])) 0 (some 0) = .ok 0 := by
    simp [gotoRecord]
  have hgs : getRecordSize d WF (some ([0], [(L : Int)])) 0 none = .ok ((L : Int), 0) := by
    unfold getRecordSize
    simp only [gotoRecord]
    rw [if_neg (by simp [hs])]
    rw [hrh]
  have hrd : readRecordData d WF 0 (alloc L) = .ok (payload, L, d.width + L + d.width) :=
    readRecordData_simple d hs L hS payload rfl (alloc L) (halloc L)
  have hread : readRecordBytes d WF (some ([0], [(L : Int)])) 0 (some 0) alloc =
      .ok (payload, d.width + L + d.width) := by
    unfold readRecordBytes
    simp only [hg0, hgs, Int.emod_one, ne_eq, not_true_eq_false, if_false,
      Int.toNat_natCast, hrd]
  refine ⟨WF, ⟨d, some ([0], [(L : Int)]), 0⟩, hwr, hopen, ?_⟩
  rw [show (⟨d, some ([0], [(L : Int)]), 0⟩ : Handle).index = some ([0], [(L : Int)]) from rfl,
    show (⟨d, some ([0], [(L : Int)]), 0⟩ : Handle).pos = 0 from rfl, hread]
  rw [hWF, envelope_length]

/-- Witness for C1 at a concrete input: `uint32` header, payload
`[1, 2, 3]`, zero-filled allocator. -/
theorem c1_write_read_roundtrip_witness :
    ∃ fileBytes h,
      writeRecord d4u true [1, 2, 3] = .ok (fileBytes, 3) ∧
      openRead d4u fileBytes true true = .ok h ∧
      readRecordBytes d4u fileBytes h.index h.pos (some 0) (fun n => List.replicate n 0) =
        .ok ([1, 2, 3], fileBytes.length) :=
  c1_write_read_roundtrip d4u (by decide) (by decide) [1, 2, 3] (by decide)
    (fun n => List.replicate n 0) (fun n => List.length_replicate n 0)

/-! ## C7 -/

/-- C7.  Simple-mode framing on write: for every payload of byte length
`S` within the header dtype's range, `write_record` emits exactly
`W + S + W` bytes (`W` the header width): a header decoding to `S`, the
payload verbatim, and a footer whose bytes equal the header's; and it
raises `ValueError` before writing any bytes when `S` exceeds the
maximum value representable by the header dtype. -/
theorem c7_write_framing (d : HeaderDtype) (hs : d.signed = false)
    (data : List Nat) :
    ((data.length : Int) ≤ d.iinfoMax →
      writeRecord d true data =
        .ok (d.encode (data.length : Int) ++ data ++ d.encode (data.length : Int),
          data.length) ∧
      (d.encode (data.length : Int) ++ data ++ d.encode (data.length : Int)).length =
        d.width + data.length + d.width ∧
      d.decode ((d.encode (data.length : Int) ++ data ++
        d.encode (data.length : Int)).take d.width) = (data.length : Int) ∧
      (d.encode (data.length : Int) ++ data ++
          d.encode (data.length : Int)).drop (d.width + data.length) =
        (d.encode (data.length : Int) ++ data ++
          d.encode (data.length : Int)).take d.width) ∧
    (d.iinfoMax < (data.length : Int) →
      writeRecord d true data = .error .valueError) := by
  constructor
  · intro hlen
    have hS : data.length < 2 ^ (8 * d.width) := by
      have hmax : d.iinfoMax = ((2 ^ (8 * d.width) : Nat) : Int) - 1 := by
        unfold HeaderDtype.iinfoMax
        rw [if_neg (by simp [hs])]
        push_cast
        ring
      rw [hmax] at hlen
      omega
    have htake : (d.encode (data.length : Int) ++ data ++
        d.encode (data.length : Int)).take d.width = d.encode (data.length : Int) := by
      rw [show d.width = (d.encode (data.length : Int)).length from
        (HeaderDtype.encode_length d (data.length : Int)).symm]
      rw [List.append_assoc, List.take_left]
    refine ⟨?_, envelope_length d (data.length : Int) data, ?_, ?_⟩
    · unfold writeRecord
      rw [if_neg (by simp), if_neg (by simp [hs]), if_neg (not_lt.mpr hlen)]
    · rw [htake]
      exact HeaderDtype.decode_encode_ofNat d hs data.length hS
    · rw [htake]
      rw [show d.width + data.length = (d.encode (data.length : Int) ++ data).length by
        simp [HeaderDtype.encode_length]]
      exact List.drop_left (d.encode (data.length : Int) ++ data)
        (d.encode (data.length : Int))
  · intro hover
    unfold writeRecord
    rw [if_neg (by simp), if_neg (by simp [hs]), if_pos hover]

/-- A 1-byte unsigned header dtype, whose representable maximum 255 can be
exceeded by a small concrete payload. -/
def d1u : HeaderDtype := ⟨1, false, .little⟩

/-- Witness for C7: a payload of 2 bytes under `uint32`, and an oversized
payload of 256 bytes under a 1-byte header dtype. -/
theorem c7_write_framing_witness :
    writeRecord d4u true [5, 6] =
      .ok (d4u.encode 2 ++ [5, 6] ++ d4u.encode 2, 2) ∧
    writeRecord d1u true (List.replicate 256 0) = .error .valueError :=
  ⟨((c7_write_framing d4u rfl [5, 6]).1 (by decide)).1,
   (c7_write_framing d1u rfl (List.replicate 256 0)).2 (by decide)⟩

/-! ## C2 -/

/-- C2.  Byte-order auto-detection: the probe is `goto_record(1)` under
the configured order; a `ValueError` from it flips the byte order and
retries the same probe; a second `ValueError` rejects the file as invalid
(`ValueError`); on success of either attempt the handle produced by the
open routine has its cursor at offset 0. -/
theorem c2_byteorder_resolution (d : HeaderDtype) (file : List Nat) :
    (∀ p, gotoRecord d file none 0 (some 1) = .ok p →
      checkByteorder d file = .ok d) ∧
    (gotoRecord d file none 0 (some 1) = .error .valueError →
      ∀ p, gotoRecord d.newbyteorder file none 0 (some 1) = .ok p →
      checkByteorder d file = .ok d.newbyteorder) ∧
    (gotoRecord d file none 0 (some 1) = .error .valueError →
      gotoRecord d.newbyteorder file none 0 (some 1) = .error .valueError →
      checkByteorder d file = .error .valueError) ∧
    (∀ (ae cf : Bool) (h : Handle), openRead d file ae cf = .ok h → h.pos = 0) := by
  refine ⟨?_, ?_, ?_, ?_⟩
  · intro p hp
    unfold checkByteorder
    rw [hp]
  · intro h1 p hp
    unfold checkByteorder
    rw [h1, hp]
  · intro h1 h2
    unfold checkByteorder
    rw [h1, h2]
  · intro ae cf h hopen
    unfold openRead at hopen
    split at hopen
    · exact Except.noConfusion hopen
    · split at hopen
      · exact Except.noConfusion hopen
      · rw [← Except.ok.inj hopen]

/-- Witness for C2: all three probe outcomes on concrete files, and the
cursor of a concretely opened handle. -/
theorem c2_byteorder_resolution_witness :
    checkByteorder d4u file1 = .ok d4u ∧
    checkByteorder (HeaderDtype.mk 4 false .big) file1 = .ok d4u ∧
    checkByteorder d4u [1, 2, 3] = .error .valueError ∧
    (Handle.mk d4u (some ([0], [2])) 0).pos = 0 :=
  ⟨(c2_byteorder_resolution d4u file1).1 10 (by decide),
   (c2_byteorder_resolution ⟨4, false, .big⟩ file1).2.1 (by decide) 10 (by decide),
   (c2_byteorder_resolution d4u [1, 2, 3]).2.2.1 (by decide) (by decide),
   (c2_byteorder_resolution d4u file1).2.2.2 true true ⟨d4u, some ([0], [2]), 0⟩
     (by decide)⟩

/-! ## C3 -/

/-- C3.  Long-mode `skip_record` on a signed header dtype: on the chain
with subrecord headers `[-100, -250, 60]`, one `skip_record` accumulates
`abs(header)` over the subrecords, stops inclusively at the first
non-negative header, returns 410, and consumes exactly 3 subrecords (its
final cursor 434 is the end of the third envelope, which is the whole
434-byte file). -/
theorem c3_long_skip_chain :
    d4i.signed = true ∧
    skipRecord1 d4i chainFile 0 = .ok (410, 434, 3) ∧
    chainFile.length = 434 :=
  ⟨rfl, by decide, by decide⟩

/-! ## C9 -/

/-- On success `get_record_size` always reports the caller's saved cursor
as the final position: the measuring path seeks back to it, the indexed
path never moves it. -/
theorem getRecordSize_pos_eq (d : HeaderDtype) (file : List Nat)
    (index : Option FIndex) (pos : Nat) (rec : Option Nat) (size : Int) (p2 : Nat)
    (h : getRecordSize d file index pos rec = .ok (size, p2)) : p2 = pos := by
  rcases rec with _ | r
  all_goals try rcases index with _ | idx
  all_goals simp only [getRecordSize] at h
  iterate 8 (all_goals try split at h)
  all_goals
    first
    | exact Except.noConfusion h
    | (obtain ⟨h1, h2⟩ := Prod.mk.inj (Except.ok.inj h); exact h2.symm)

/-- C9.  Size query preserves the cursor: on the measuring path (no index,
or no record number given), a successful `get_record_size` leaves the file
position exactly where it was. -/
theorem c9_size_query_preserves_cursor (d : HeaderDtype) (file : List Nat)
    (index : Option FIndex) (pos : Nat) (rec : Option Nat) (size : Int) (p2 : Nat)
    (_hpath : rec = none ∨ index = none)
    (h : getRecordSize d file index pos rec = .ok (size, p2)) : p2 = pos :=
  getRecordSize_pos_eq d file index pos rec size p2 h

/-- Witness for C9: a size query on the concrete one-record file without
an index, starting at cursor 0. -/
theorem c9_size_query_preserves_cursor_witness : (0 : Nat) = 0 :=
  c9_size_query_preserves_cursor d4u file1 none 0 none 2 0 (Or.inr rfl) (by decide)

/-! ## C10 -/

/-- C10.  `read_record_into` rejects, with `TypeError`, every destination
whose dtype byte order differs from the handle's resolved byte order;
since the result is `TypeError` for every file, cursor, index, offset and
record number, the rejection happens before any seek or read. -/
theorem c10_read_into_order_guard (d : HeaderDtype) (file : List Nat)
    (index : Option FIndex) (pos : Nat) (intoOrder : ByteOrder) (into : List Nat)
    (offset : Option Nat) (rec : Option Nat) (h : intoOrder ≠ d.order) :
    readRecordInto d file index pos intoOrder into offset rec = .error .typeError := by
  unfold readRecordInto
  rw [if_pos h]

/-- Witness for C10: a big-endian destination against the little-endian
`uint32` handle. -/
theorem c10_read_into_order_guard_witness :
    readRecordInto d4u file1 none 0 .big [0, 0] none none = .error .typeError :=
  c10_read_into_order_guard d4u file1 none 0 .big [0, 0] none none (by decide)

/-! ## C8 -/

/-- C8.  Framing-corruption rejection: the simple-mode check accepts a
header/footer pair exactly when they are equal, the long-mode check
exactly when they are equal in absolute value; and the handcrafted
subrecord with header 20 and footer 21 raises `ValueError` both on skip
and on read. -/
theorem c8_framing_mismatch_rejection :
    (∀ head tail : Int, assertHeaderEqual head tail = .ok () ↔ head = tail) ∧
    (∀ head tail : Int, assertHeaderAbsEqual head tail = .ok () ↔ |head| = |tail|) ∧
    skipRecord1 d4u badFile 0 = .error .valueError ∧
    readRecordBytes d4u badFile none 0 none (fun n => List.replicate n 0) =
      .error .valueError := by
  refine ⟨?_, ?_, by decide, by decide⟩
  · intro head tail
    by_cases hht : head = tail <;> simp [assertHeaderEqual, hht]
  · intro head tail
    by_cases h1 : head = tail
    · simp [assertHeaderAbsEqual, h1, abs_eq_abs]
    · by_cases h2 : head = -tail <;> simp [assertHeaderAbsEqual, h1, h2, abs_eq_abs]

/-! ## Index lemmas (for C4, C5, C6) -/

/-- Inverting one successful step of the `_check_file` scan loop: either
the cursor already sits at the file size and the lists are empty, or one
record was skipped and the loop went on from its end. -/
theorem checkFileLoop_inv (d : HeaderDtype) (file : List Nat) (fuel pos : Nat)
    (offs : List Nat) (lens : List Int)
    (h : checkFileLoop d file fuel pos = .ok (offs, lens)) :
    (offs = [] ∧ lens = [] ∧ pos = file.length) ∨
    (∃ offs1 len lens1 fuel1 p1 c1, offs = pos :: offs1 ∧ lens = len :: lens1 ∧
      skipRecord1 d file pos = .ok (len, p1, c1) ∧
      checkFileLoop d file fuel1 p1 = .ok (offs1, lens1)) := by
  match fuel with
  | 0 =>
    rw [checkFileLoop_zero] at h
    exact Except.noConfusion h
  | fuel + 1 =>
    rw [checkFileLoop_succ] at h
    split at h
    next hp =>
      obtain ⟨h1, h2⟩ := Prod.mk.inj (Except.ok.inj h)
      exact Or.inl ⟨h1.symm, h2.symm, hp⟩
    next hp =>
      split at h
      next e hsk => exact Except.noConfusion h
      next len p1 c1 hsk =>
        split at h
        next e hcl => exact Except.noConfusion h
        next offs1 lens1 hcl =>
          obtain ⟨h1, h2⟩ := Prod.mk.inj (Except.ok.inj h)
          exact Or.inr ⟨offs1, len, lens1, fuel, p1, c1, h1.symm, h2.symm, hsk, hcl⟩

/-- `_offsets` and `_lengths` always come out the same length. -/
theorem checkFileLoop_length_eq (d : HeaderDtype) (file : List Nat) :
    ∀ (offs : List Nat) (fuel pos : Nat) (lens : List Int),
      checkFileLoop d file fuel pos = .ok (offs, lens) →
      offs.length = lens.length := by
  intro offs
  induction offs with
  | nil =>
    intro fuel pos lens h
    rcases checkFileLoop_inv d file fuel pos [] lens h with
      ⟨_, hl, _⟩ | ⟨offs1, len, lens1, fuel1, p1, c1, ho, _, _, _⟩
    · simp [hl]
    · exact List.noConfusion ho
  | cons o offs1 ih =>
    intro fuel pos lens h
    rcases checkFileLoop_inv d file fuel pos (o :: offs1) lens h with
      ⟨ho, _, _⟩ | ⟨offs1x, len, lens1, fuel1, p1, c1, ho, hl, hsk, hcl⟩
    · exact List.noConfusion ho
    · obtain ⟨ho1, ho2⟩ := List.cons.inj ho
      rw [← ho2] at hcl
      rw [hl]
      simp only [List.length_cons]
      rw [ih fuel1 p1 lens1 hcl]

/-- Sequentially skipping `n` records from a scanned position lands on the
`n`-th recorded offset. -/
theorem checkFileLoop_skipN (d : HeaderDtype) (file : List Nat) :
    ∀ (n fuel pos : Nat) (offs : List Nat) (lens : List Int) (o : Nat) (t : Int),
      checkFileLoop d file fuel pos = .ok (offs, lens) →
      offs.get? n = some o →
      ∃ tot, skipRecordN d file n pos t = .ok (tot, o) := by
  intro n
  induction n with
  | zero =>
    intro fuel pos offs lens o t h hg
    rcases checkFileLoop_inv d file fuel pos offs lens h with
      ⟨ho, _, _⟩ | ⟨offs1, len, lens1, fuel1, p1, c1, ho, _, _, _⟩
    · rw [ho] at hg
      exact Option.noConfusion hg
    · rw [ho] at hg
      refine ⟨t, ?_⟩
      rw [skipRecordN_zero, Option.some.inj hg]
  | succ n ih =>
    intro fuel pos offs lens o t h hg
    rcases checkFileLoop_inv d file fuel pos offs lens h with
      ⟨ho, _, _⟩ | ⟨offs1, len, lens1, fuel1, p1, c1, ho, _, hsk, hcl⟩
    · rw [ho] at hg
      exact Option.noConfusion hg
    · rw [ho] at hg
      obtain ⟨tot, hsn⟩ := ih fuel1 p1 offs1 lens1 o (t + len) hcl hg
      refine ⟨tot, ?_⟩
      rw [skipRecordN_succ, hsk]
      exact hsn

/-- The record skipped at the `n`-th recorded offset has the `n`-th
recorded length. -/
theorem checkFileLoop_measure (d : HeaderDtype) (file : List Nat) :
    ∀ (n fuel pos : Nat) (offs : List Nat) (lens : List Int) (o : Nat) (l : Int),
      checkFileLoop d file fuel pos = .ok (offs, lens) →
      offs.get? n = some o → lens.get? n = some l →
      ∃ p1 c1, skipRecord1 d file o = .ok (l, p1, c1) := by
  intro n
  induction n with
  | zero =>
    intro fuel pos offs lens o l h hgo hgl
    rcases checkFileLoop_inv d file fuel pos offs lens h with
      ⟨ho, _, _⟩ | ⟨offs1, len, lens1, fuel1, p1, c1, ho, hl, hsk, hcl⟩
    · rw [ho] at hgo
      exact Option.noConfusion hgo
    · rw [ho] at hgo
      rw [hl] at hgl
      rw [← Option.some.inj hgo, ← Option.some.inj hgl]
      exact ⟨p1, c1, hsk⟩
  | succ n ih =>
    intro fuel pos offs lens o l h hgo hgl
    rcases checkFileLoop_inv d file fuel pos offs lens h with
      ⟨ho, _, _⟩ | ⟨offs1, len, lens1, fuel1, p1, c1, ho, hl, hsk, hcl⟩
    · rw [ho] at hgo
      exact Option.noConfusion hgo
    · rw [ho] at hgo
      rw [hl] at hgl
      exact ih fuel1 p1 offs1 lens1 o l hcl hgo hgl

/-- Skipping as many records as the scan recorded walks exactly to the end
of the file. -/
theorem checkFileLoop_end (d : HeaderDtype) (file : List Nat) :
    ∀ (offs : List Nat) (fuel pos : Nat) (lens : List Int) (t : Int),
      checkFileLoop d file fuel pos = .ok (offs, lens) →
      ∃ tot, skipRecordN d file offs.length pos t = .ok (tot, file.length) := by
  intro offs
  induction offs with
  | nil =>
    intro fuel pos lens t h
    rcases checkFileLoop_inv d file fuel pos [] lens h with
      ⟨_, _, hp⟩ | ⟨offs1, len, lens1, fuel1, p1, c1, ho, _, _, _⟩
    · refine ⟨t, ?_⟩
      rw [show ([] : List Nat).length = 0 from rfl, skipRecordN_zero, hp]
    · exact List.noConfusion ho
  | cons o offs1 ih =>
    intro fuel pos lens t h
    rcases checkFileLoop_inv d file fuel pos (o :: offs1) lens h with
      ⟨ho, _, _⟩ | ⟨offs1x, len, lens1, fuel1, p1, c1, ho, _, hsk, hcl⟩
    · exact List.noConfusion ho
    · obtain ⟨ho1, ho2⟩ := List.cons.inj ho
      rw [← ho2] at hcl
      obtain ⟨tot, hsn⟩ := ih fuel1 p1 lens1 (t + len) hcl
      refine ⟨tot, ?_⟩
      rw [List.length_cons, skipRecordN_succ, hsk]
      exact hsn

/-- In simple mode a successful record skip determines the header read at
its start: the skipped total is the decoded header value. -/
theorem skipRecord1_simple_inv (d : HeaderDtype) (hs : d.signed = false)
    (file : List Nat) (pos : Nat) (t : Int) (p c : Nat)
    (h : skipRecord1 d file pos = .ok (t, p, c)) :
    readHeader d file pos = .ok (t, pos + d.width) := by
  unfold skipRecord1 at h
  rw [if_neg (by simp [hs])] at h
  split at h
  next e heq => exact Except.noConfusion h
  next head p1 heq =>
    have hp1 : p1 = pos + d.width := by
      unfold readHeader at heq
      split at heq
      · exact (Prod.mk.inj (Except.ok.inj heq)).2.symm
      · exact Except.noConfusion heq
    split at h
    next e heq2 => exact Except.noConfusion h
    next tail p3 heq2 =>
      split at h
      next e heq3 => exact Except.noConfusion h
      next u heq3 =>
        obtain ⟨h1, _⟩ := Prod.mk.inj (Except.ok.inj h)
        rw [heq, hp1, h1]

/-! ## C4 -/

/-- C4.  Index equivalence: on a valid container file (one the
`_check_file` scan accepts) and a valid record number `n`,
`get_record_size(n)` returns the same value whether the index is present
(direct `_lengths[n]` lookup) or absent (measuring walk), and in either
case reports the caller's cursor unchanged. -/
theorem c4_index_equivalence (d : HeaderDtype) (file : List Nat)
    (offs : List Nat) (lens : List Int) (n : Nat) (sz : Int)
    (hcf : checkFile d file = .ok (offs, lens))
    (hn : lens.get? n = some sz) (pos pos2 : Nat) :
    getRecordSize d file (some (offs, lens)) pos (some n) = .ok (sz, pos) ∧
    getRecordSize d file none pos2 (some n) = .ok (sz, pos2) := by
  have hleq := checkFileLoop_length_eq d file offs _ _ lens hcf
  have hnlt : n < lens.length := (List.get?_eq_some.mp hn).1
  have hnlt2 : n < offs.length := by omega
  obtain ⟨o, hgo⟩ : ∃ o, offs.get? n = some o := ⟨_, List.get?_eq_get hnlt2⟩
  constructor
  · simp only [getRecordSize]
    rw [hn]
  · obtain ⟨tot, hsn⟩ := checkFileLoop_skipN d file n _ _ offs lens o 0 hcf hgo
    obtain ⟨p1, c1, hsk⟩ := checkFileLoop_measure d file n _ _ offs lens o sz hcf hgo hn
    simp only [getRecordSize, gotoRecord, hsn]
    cases hsgn : d.signed with
    | true =>
      simp only [if_true, hsk]
    | false =>
      have hrh := skipRecord1_simple_inv d hsgn file o sz p1 c1 hsk
      simp only [Bool.false_eq_true, if_false, hrh]

/-- Witness for C4: both paths agree on record 1 of the concrete
two-record file. -/
theorem c4_index_equivalence_witness :
    getRecordSize d4u twoRecFile (some ([0, 9], [1, 2])) 5 (some 1) = .ok (2, 5) ∧
    getRecordSize d4u twoRecFile none 7 (some 1) = .ok (2, 7) :=
  c4_index_equivalence d4u twoRecFile [0, 9] [1, 2] 1 2 (by decide) (by decide) 5 7

/-! ## C5 -/

/-- Counterexample to C5 as stated: on a handle without the index, the
code does not fail on `goto_record(N)` with `N` the total record count.
`file1` holds exactly one record; `goto_record(1)` succeeds and returns
cursor 10 (the end of the file). -/
theorem c5_counterexample_no_index_goto_succeeds :
    gotoRecord d4u file1 none 0 (some 1) = .ok 10 := by decide

/-- C5 (amended).  With the index built at open, `goto_record(N)` for
`N` = the record count fails with `IndexError` (out of range), and on a
zero-record file every `goto_record(n)` fails the same way; without the
index, `goto_record(N)` on a valid `N`-record file does not fail: the
sequential skip consumes the whole file and leaves the cursor at the file
size. -/
theorem c5_goto_boundary (d : HeaderDtype) (file : List Nat)
    (offs : List Nat) (lens : List Int)
    (hcf : checkFile d file = .ok (offs, lens)) (pos pos2 : Nat) :
    gotoRecord d file (some (offs, lens)) pos (some offs.length) =
      .error .indexError ∧
    (∀ (efile : List Nat) (n p3 : Nat),
      gotoRecord d efile (some ([], [])) p3 (some n) = .error .indexError) ∧
    ∃ tot, skipRecordN d file offs.length 0 0 = .ok (tot, file.length) ∧
      gotoRecord d file none pos2 (some offs.length) = .ok file.length := by
  refine ⟨?_, ?_, ?_⟩
  · simp only [gotoRecord]
    rw [List.get?_eq_none.mpr (le_refl offs.length)]
  · intro efile n p3
    simp [gotoRecord]
  · obtain ⟨tot, hsn⟩ := checkFileLoop_end d file offs _ 0 lens 0 hcf
    exact ⟨tot, hsn, by simp only [gotoRecord, hsn]⟩

/-- Witness for C5 (amended) on the concrete two-record file. -/
theorem c5_goto_boundary_witness :
    gotoRecord d4u twoRecFile (some ([0, 9], [1, 2])) 5 (some 2) =
      .error .indexError ∧
    (∀ (efile : List Nat) (n p3 : Nat),
      gotoRecord d4u efile (some ([], [])) p3 (some n) = .error .indexError) ∧
    ∃ tot, skipRecordN d4u twoRecFile 2 0 0 = .ok (tot, 19) ∧
      gotoRecord d4u twoRecFile none 7 (some 2) = .ok 19 :=
  c5_goto_boundary d4u twoRecFile [0, 9] [1, 2] (by decide) 5 7

/-! ## C6 -/

/-- C6.  One-record-file probe policy: on a file that the scan certifies
as exactly one record (so the probe for a second record meets the end of
the file rather than corruption), byte-order auto-detection accepts the
configured order as-is: no flip, no rejection. -/
theorem c6_one_record_accepts_order (d : HeaderDtype) (file : List Nat)
    (o : Nat) (l : Int)
    (hcf : checkFile d file = .ok ([o], [l])) :
    checkByteorder d file = .ok d := by
  obtain ⟨tot, hsn⟩ := checkFileLoop_end d file [o] _ 0 [l] 0 hcf
  rw [List.length_singleton] at hsn
  have hg : gotoRecord d file none 0 (some 1) = .ok file.length := by
    simp only [gotoRecord, hsn]
  unfold checkByteorder
  rw [hg]

/-- Witness for C6 on the concrete one-record file. -/
theorem c6_one_record_accepts_order_witness :
    checkByteorder d4u file1 = .ok d4u :=
  c6_one_record_accepts_order d4u file1 0 2 (by decide)

end Fortio
